import Mathlib

/-!
Verification of the client-side scripts of AppSecurityProject
(static/js/main.js), centred on the account-lockout countdown widget:
duration parsing of the rendered lockout message, the countdown state
machine driven by a one-second ticker, display formatting, form-submit
gating, and the peripheral widgets (password visibility toggle, field
validator, file-size guard).
-/

namespace AppSec

/-! ## JavaScript character classes (regex `\d` and `\s`) -/

/-- Regex `\d` = `[0-9]`. -/
def isDigitJS (c : Char) : Bool := 48 ≤ c.toNat && c.toNat ≤ 57

/-- The ECMAScript whitespace set matched by regex `\s` (and stripped by
`String.prototype.trim`). -/
def jsWhitespace : List Char :=
  [' ', '\t', '\n', '\r', Char.ofNat 11, Char.ofNat 12, Char.ofNat 160,
   Char.ofNat 5760, Char.ofNat 8192, Char.ofNat 8193, Char.ofNat 8194,
   Char.ofNat 8195, Char.ofNat 8196, Char.ofNat 8197, Char.ofNat 8198,
   Char.ofNat 8199, Char.ofNat 8200, Char.ofNat 8201, Char.ofNat 8202,
   Char.ofNat 8232, Char.ofNat 8233, Char.ofNat 8239, Char.ofNat 8287,
   Char.ofNat 12288, Char.ofNat 65279]

/-- Regex `\s`. -/
def isSpaceJS (c : Char) : Bool := decide (c ∈ jsWhitespace)

/-- `parseInt` applied to a captured all-digit group: decimal value. -/
def decVal (ds : List Char) : Nat := ds.foldl (fun a c => a * 10 + (c.toNat - 48)) 0

/-! ## The lockout-duration regex
`/(\d+)\s+minute\(s\)\s+and\s+(\d+)\s+second\(s\)|(\d+)\s+second\(s\)/`
applied with `String.prototype.match` (first match, scanning left to
right, left alternative preferred at each start position). -/

/-- The literal `minute(s)` of the regex. -/
def minuteLit : List Char := ['m', 'i', 'n', 'u', 't', 'e', '(', 's', ')']

/-- The literal `and` of the regex. -/
def andLit : List Char := ['a', 'n', 'd']

/-- The literal `second(s)` of the regex. -/
def secondLit : List Char := ['s', 'e', 'c', 'o', 'n', 'd', '(', 's', ')']

/-- Match a literal character sequence at the head of the input, returning
the remainder. -/
def stripLit : List Char → List Char → Option (List Char)
  | [], cs => some cs
  | _ :: _, [] => none
  | l :: ls, c :: cs => if c = l then stripLit ls cs else none

/-- Left alternative `(\d+)\s+minute\(s\)\s+and\s+(\d+)\s+second\(s\)`
anchored at the head of the input; returns the two captured digit groups.
Greedy `\d+`/`\s+` need no backtracking here because each is followed by a
token that cannot match its own character class. -/
def matchA (cs : List Char) : Option (List Char × List Char) :=
  let g1 := cs.takeWhile isDigitJS
  let r1 := cs.dropWhile isDigitJS
  if g1 = [] then none else
  let s1 := r1.takeWhile isSpaceJS
  let r2 := r1.dropWhile isSpaceJS
  if s1 = [] then none else
  match stripLit minuteLit r2 with
  | none => none
  | some r3 =>
    let s2 := r3.takeWhile isSpaceJS
    let r4 := r3.dropWhile isSpaceJS
    if s2 = [] then none else
    match stripLit andLit r4 with
    | none => none
    | some r5 =>
      let s3 := r5.takeWhile isSpaceJS
      let r6 := r5.dropWhile isSpaceJS
      if s3 = [] then none else
      let g2 := r6.takeWhile isDigitJS
      let r7 := r6.dropWhile isDigitJS
      if g2 = [] then none else
      let s4 := r7.takeWhile isSpaceJS
      let r8 := r7.dropWhile isSpaceJS
      if s4 = [] then none else
      match stripLit secondLit r8 with
      | none => none
      | some _ => some (g1, g2)

/-- Right alternative `(\d+)\s+second\(s\)` anchored at the head of the
input; returns the captured digit group. -/
def matchB (cs : List Char) : Option (List Char) :=
  let g3 := cs.takeWhile isDigitJS
  let r1 := cs.dropWhile isDigitJS
  if g3 = [] then none else
  let s5 := r1.takeWhile isSpaceJS
  let r2 := r1.dropWhile isSpaceJS
  if s5 = [] then none else
  match stripLit secondLit r2 with
  | none => none
  | some _ => some g3

/-- Result of a successful regex match: which alternative matched and its
captured groups (`timeMatch[1]`/`timeMatch[2]` versus `timeMatch[3]`). -/
inductive MatchResult where
  | minSec (g1 g2 : List Char)
  | secOnly (g3 : List Char)
deriving DecidableEq

/-- One attempt of the full alternation at a fixed start position. -/
def tryAt (cs : List Char) : Option MatchResult :=
  match matchA cs with
  | some (g1, g2) => some (.minSec g1 g2)
  | none =>
    match matchB cs with
    | some g3 => some (.secOnly g3)
    | none => none

/-- `message.match(re)`: scan start positions left to right, returning the
first successful attempt. -/
def jsMatch : List Char → Option MatchResult
  | [] => tryAt []
  | c :: cs =>
    match tryAt (c :: cs) with
    | some r => some r
    | none => jsMatch cs

/-- The `totalSeconds` computed by the DOMContentLoaded handler from the
match object: `parseInt(m[1])*60 + parseInt(m[2])` for the two-group
shape, `parseInt(m[3])` for the seconds-only shape, nothing on no match. -/
def totalSecondsOf (cs : List Char) : Option Nat :=
  match jsMatch cs with
  | some (.minSec g1 g2) => some (decVal g1 * 60 + decVal g2)
  | some (.secOnly g3) => some (decVal g3)
  | none => none

/-- The guard `if (totalSeconds && totalSeconds > 0)`: the countdown is
created and started only for a truthy, strictly positive total. -/
def countdownStarts (cs : List Char) : Option Nat :=
  match totalSecondsOf cs with
  | some t => if 0 < t then some t else none
  | none => none

/-- Observable outcome of the lockout DOMContentLoaded handler: whether a
countdown was created (and with which total), and the text left in the
`.lockout-reason` node (the handler only inserts a sibling after it, never
rewrites it). -/
structure LockoutHandlerOutcome where
  countdown : Option Nat
  displayedMessage : String
deriving DecidableEq

/-- The lockout DOMContentLoaded handler, as a function of the rendered
message text. -/
def lockoutInitHandler (msg : String) : LockoutHandlerOutcome :=
  { countdown := countdownStarts msg.toList, displayedMessage := msg }

/-! ## Countdown state machine (`startLockoutCountdown` and its interval) -/

/-- `String.prototype.padStart(2, '0')`. -/
def padStart2 (s : String) : String :=
  if s.length < 2 then String.mk (List.replicate (2 - s.length) '0') ++ s else s

/-- `formatTime`: `Math.floor(seconds/60)` is flooring division,
`seconds % 60` is the JS remainder (sign of the dividend). -/
def formatTimeInt (seconds : Int) : String :=
  let minutes := Int.fdiv seconds 60
  let remainingSeconds := Int.tmod seconds 60
  if 0 < minutes then toString minutes ++ ":" ++ padStart2 (toString remainingSeconds)
  else toString remainingSeconds ++ "s"

/-- State of one countdown widget instance: the mutated `totalSeconds`
counter, the captured `originalSeconds`, whether the interval is still
scheduled, the timer text node, the progress-bar width, whether the
expired notice has replaced the countdown UI, and the class state of the
enclosing alert (`lockout-alert` present / `alert-success` added). -/
structure LockoutState where
  remaining : Int
  original : Nat
  running : Bool
  timerText : String
  progressPct : Rat
  expiredShown : Bool
  lockoutClassPresent : Bool
  alertSuccess : Bool
deriving DecidableEq

/-- `startLockoutCountdown(totalSeconds)`: captures `originalSeconds`,
schedules the interval; the handler has just rendered
`formatTime(totalSeconds)` into the timer node and the progress bar has no
width yet. -/
def startLockoutCountdown (totalSeconds : Nat) : LockoutState :=
  { remaining := totalSeconds
    original := totalSeconds
    running := true
    timerText := formatTimeInt totalSeconds
    progressPct := 0
    expiredShown := false
    lockoutClassPresent := true
    alertSuccess := false }

/-- `showLockoutExpired()`: replace the countdown UI with the unlocked
notice, drop the `lockout-alert` class and add `alert-success`. -/
def showLockoutExpired (s : LockoutState) : LockoutState :=
  { s with expiredShown := true, lockoutClassPresent := false, alertSuccess := true }

/-- One firing of the interval callback: decrement, rewrite the timer
text, recompute the progress percentage
`((originalSeconds - totalSeconds) / originalSeconds) * 100`, and on
reaching zero clear the interval and run `showLockoutExpired`. A cleared
interval never fires, so a tick of a non-running state is the identity. -/
def tick (s : LockoutState) : LockoutState :=
  if s.running then
    let r := s.remaining - 1
    let s1 : LockoutState :=
      { s with
        remaining := r
        timerText := formatTimeInt r
        progressPct := ((s.original : Rat) - (r : Rat)) / (s.original : Rat) * 100 }
    if r ≤ 0 then showLockoutExpired { s1 with running := false } else s1
  else s

/-! ## Login form submit gating -/

/-- Observable outcome of one firing of the login-form submit handler. -/
structure SubmitOutcome where
  prevented : Bool
  warningInserted : Bool
  warningRemovalDelayMs : Nat
deriving DecidableEq

/-- The submit handler: blocks while an element with class `lockout-alert`
exists and lacks `alert-success`; inserts the transient warning only when
no `.lockout-submission-warning` is already in the document, scheduling
its removal after 5000 ms. -/
def loginSubmitHandler (lockoutAlertPresent alertSuccess warningPresent : Bool) :
    SubmitOutcome :=
  if lockoutAlertPresent && !alertSuccess then
    { prevented := true
      warningInserted := !warningPresent
      warningRemovalDelayMs := if warningPresent then 0 else 5000 }
  else
    { prevented := false, warningInserted := false, warningRemovalDelayMs := 0 }

/-! ## Password visibility toggle (`togglePasswordField`) -/

/-- The eye icon inside the toggle button (absent when
`toggle.querySelector('img')` finds nothing). -/
structure IconSt where
  src : String
  alt : String
deriving DecidableEq

/-- View state of one password input plus its toggle control. -/
structure PasswordWidget where
  fieldType : String
  icon : Option IconSt
  ariaLabel : String
  title : String
deriving DecidableEq

/-- `togglePasswordField(field, toggle)`. -/
def togglePasswordField (w : PasswordWidget) : PasswordWidget :=
  if w.fieldType = "password" then
    { fieldType := "text"
      icon := w.icon.map fun _ =>
        { src := "/static/uploads/eye-slash.png", alt := "Hide password" }
      ariaLabel := "Hide password"
      title := "Hide password" }
  else
    { fieldType := "password"
      icon := w.icon.map fun _ =>
        { src := "/static/uploads/eye.png", alt := "Show password" }
      ariaLabel := "Show password"
      title := "Show password" }

/-- A page holding the one widget the toggle owns plus everything else;
`togglePasswordField` touches only the field and its toggle control. -/
structure Page (α : Type) where
  widget : PasswordWidget
  rest : α

/-- The click handler acting on the whole page. -/
def togglePasswordOnPage {α : Type} (p : Page α) : Page α :=
  { p with widget := togglePasswordField p.widget }

/-- A widget whose icon and labels agree with its masked/plaintext state
(the only states the page markup and the toggle itself produce). -/
def consistentWidget (w : PasswordWidget) : Bool :=
  (w.fieldType = "password" && w.ariaLabel = "Show password" && w.title = "Show password"
    && (w.icon = none
        || w.icon = some { src := "/static/uploads/eye.png", alt := "Show password" }))
  || (w.fieldType = "text" && w.ariaLabel = "Hide password" && w.title = "Hide password"
    && (w.icon = none
        || w.icon = some { src := "/static/uploads/eye-slash.png", alt := "Hide password" }))

/-! ## Field validator (`validateField` / `showFieldError`) -/

/-- `String.prototype.trim()`: strip the JS whitespace set from both ends. -/
def trimCharsJS (cs : List Char) : List Char :=
  ((cs.dropWhile isSpaceJS).reverse.dropWhile isSpaceJS).reverse

/-- `value.trim()` on a Lean string. -/
def jsTrim (s : String) : String := String.mk (trimCharsJS s.toList)

/-- A character admitted by the atom `[^\s@]` of the e-mail regex. -/
def isEmailAtomChar (c : Char) : Bool := !isSpaceJS c && c ≠ '@'

/-- The part after `@` must carry a dot that is neither its first nor its
last character (regex `[^\s@]+\.[^\s@]+$`). -/
def emailDotOk (r : List Char) : Bool := ((r.drop 1).dropLast).contains '.'

/-- `emailRegex.test(value)` for `/^[^\s@]+@[^\s@]+\.[^\s@]+$/`: the atom
excludes `@`, so the matched `@` is the first one in the string. -/
def emailTest (cs : List Char) : Bool :=
  let l := cs.takeWhile (fun c => c ≠ '@')
  match cs.dropWhile (fun c => c ≠ '@') with
  | '@' :: r =>
    !l.isEmpty && l.all isEmailAtomChar && !r.isEmpty && r.all isEmailAtomChar
      && emailDotOk r
  | _ => false

/-- Verdict of `validateField` together with the error messages shown via
`showFieldError`. -/
structure ValidationOutcome where
  isValid : Bool
  errors : List String
deriving DecidableEq

/-- `showFieldError(field, message)`: the field is flagged invalid and the
message appended to the document. -/
def addFieldError (r : ValidationOutcome) (msg : String) : ValidationOutcome :=
  { isValid := false, errors := r.errors ++ [msg] }

/-- `validateField(field)` as a function of the field's value, its `type`,
its `required` attribute, its `id`, and the value of the
`register_password` element when one exists (the companion looked up for
the confirm check). -/
def validateField (value fieldType : String) (isRequired : Bool) (fieldId : String)
    (registerPasswordValue : Option String) : ValidationOutcome :=
  let v := jsTrim value
  let r0 : ValidationOutcome := { isValid := true, errors := [] }
  let r1 := if isRequired = true ∧ v = "" then addFieldError r0 "This field is required" else r0
  let r2 :=
    if fieldType = "email" ∧ v ≠ "" ∧ emailTest v.toList = false then
      addFieldError r1 "Please enter a valid email address"
    else r1
  let r3 :=
    if fieldId = "register_password" ∧ v ≠ "" ∧ v.length < 8 then
      addFieldError r2 "Password must be at least 8 characters long"
    else r2
  match registerPasswordValue with
  | some pw =>
    if fieldId = "confirm_password" ∧ v ≠ "" ∧ v ≠ pw then
      addFieldError r3 "Passwords do not match"
    else r3
  | none => r3

/-! ## File-size guard -/

/-- The `change` handler of the page's file input: a selected file whose
size exceeds 5·1024·1024 bytes is discarded by resetting the input's
value; otherwise the value is untouched. -/
def fileChangeHandler (fileSize : Option Nat) (value : String) : String :=
  match fileSize with
  | some size => if size > 5 * 1024 * 1024 then "" else value
  | none => value

/-! ## Spec-side definitions (for refinement-style claims) -/

/-- Spec shape containment: the message contains, at some position, a
substring of the form digits, whitespace, `minute(s)`, whitespace, `and`,
whitespace, digits, whitespace, `second(s)`. -/
def specContainsA (cs : List Char) : Prop :=
  ∃ pre g1 s1 s2 s3 g2 s4 tail : List Char,
    cs = pre ++ g1 ++ s1 ++ minuteLit ++ s2 ++ andLit ++ s3 ++ g2 ++ s4 ++ secondLit ++ tail
      ∧ g1 ≠ [] ∧ g2 ≠ [] ∧ s1 ≠ [] ∧ s2 ≠ [] ∧ s3 ≠ [] ∧ s4 ≠ []
      ∧ (∀ c ∈ g1, isDigitJS c = true) ∧ (∀ c ∈ g2, isDigitJS c = true)
      ∧ (∀ c ∈ s1, isSpaceJS c = true) ∧ (∀ c ∈ s2, isSpaceJS c = true)
      ∧ (∀ c ∈ s3, isSpaceJS c = true) ∧ (∀ c ∈ s4, isSpaceJS c = true)

/-- Spec shape containment for the seconds-only form. -/
def specContainsB (cs : List Char) : Prop :=
  ∃ pre g3 s5 tail : List Char,
    cs = pre ++ g3 ++ s5 ++ secondLit ++ tail
      ∧ g3 ≠ [] ∧ s5 ≠ []
      ∧ (∀ c ∈ g3, isDigitJS c = true) ∧ (∀ c ∈ s5, isSpaceJS c = true)

/-- The display format as the spec words it: `M:SS` (seconds zero-padded
to two digits) when the minutes component is positive, else `Ss`. -/
def specFormatTime (n : Nat) : String :=
  if 0 < n / 60 then
    toString (n / 60) ++ ":"
      ++ (if n % 60 < 10 then "0" ++ toString (n % 60) else toString (n % 60))
  else toString n ++ "s"

/-! ## Character-class lemmas -/

theorem space_not_digit {c : Char} (h : isSpaceJS c = true) : isDigitJS c = false := by
  have hc : c ∈ jsWhitespace := of_decide_eq_true h
  fin_cases hc <;> decide

theorem digit_not_space {c : Char} (h : isDigitJS c = true) : isSpaceJS c = false := by
  cases hs : isSpaceJS c with
  | false => rfl
  | true => rw [space_not_digit hs] at h; exact absurd h (by simp)

/-! ## takeWhile / dropWhile block lemmas -/

theorem takeWhile_app {p : Char → Bool} (xs : List Char) (y : Char) (ys : List Char)
    (hx : ∀ c ∈ xs, p c = true) (hy : p y = false) :
    List.takeWhile p (xs ++ y :: ys) = xs := by
  induction xs with
  | nil =>
    have hy' : ¬ p y := by simp [hy]
    simp [List.takeWhile_cons_of_neg hy']
  | cons a as ih =>
    have ha : p a = true := hx a (List.mem_cons_self a as)
    simp only [List.cons_append, List.takeWhile_cons_of_pos ha]
    rw [ih (fun c hc => hx c (List.mem_cons_of_mem _ hc))]

theorem dropWhile_app {p : Char → Bool} (xs : List Char) (y : Char) (ys : List Char)
    (hx : ∀ c ∈ xs, p c = true) (hy : p y = false) :
    List.dropWhile p (xs ++ y :: ys) = y :: ys := by
  induction xs with
  | nil =>
    have hy' : ¬ p y := by simp [hy]
    simp [List.dropWhile_cons_of_neg hy']
  | cons a as ih =>
    have ha : p a = true := hx a (List.mem_cons_self a as)
    simp only [List.cons_append, List.dropWhile_cons_of_pos ha]
    exact ih (fun c hc => hx c (List.mem_cons_of_mem _ hc))

theorem takeWhile_cons_block {p : Char → Bool} (x : Char) (xs : List Char) (y : Char)
    (ys : List Char) (hx : p x = true) (hxs : ∀ c ∈ xs, p c = true) (hy : p y = false) :
    List.takeWhile p (x :: (xs ++ y :: ys)) = x :: xs := by
  simp only [List.takeWhile_cons_of_pos hx]
  rw [takeWhile_app xs y ys hxs hy]

theorem dropWhile_cons_block {p : Char → Bool} (x : Char) (xs : List Char) (y : Char)
    (ys : List Char) (hx : p x = true) (hxs : ∀ c ∈ xs, p c = true) (hy : p y = false) :
    List.dropWhile p (x :: (xs ++ y :: ys)) = y :: ys := by
  simp only [List.dropWhile_cons_of_pos hx]
  exact dropWhile_app xs y ys hxs hy

/-! ## stripLit lemmas -/

theorem stripLit_append (l rest : List Char) : stripLit l (l ++ rest) = some rest := by
  induction l with
  | nil => rfl
  | cons a as ih => simp [stripLit, ih]

theorem stripLit_eq_append {l cs rest : List Char} (h : stripLit l cs = some rest) :
    cs = l ++ rest := by
  induction l generalizing cs with
  | nil =>
    simp only [stripLit, Option.some.injEq] at h
    simpa using h
  | cons a as ih =>
    cases cs with
    | nil => simp [stripLit] at h
    | cons c cs' =>
      by_cases hc : c = a
      · subst hc
        simp only [stripLit, if_pos rfl] at h
        simpa using ih h
      · simp [stripLit, hc] at h

theorem stripLit_head_ne {a c : Char} {ls cs : List Char} (h : c ≠ a) :
    stripLit (a :: ls) (c :: cs) = none := by
  simp [stripLit, h]

theorem stripLit_minuteL (R : List Char) :
    stripLit ['m', 'i', 'n', 'u', 't', 'e', '(', 's', ')']
      ('m' :: 'i' :: 'n' :: 'u' :: 't' :: 'e' :: '(' :: 's' :: ')' :: R) = some R :=
  stripLit_append ['m', 'i', 'n', 'u', 't', 'e', '(', 's', ')'] R

theorem stripLit_andL (R : List Char) :
    stripLit ['a', 'n', 'd'] ('a' :: 'n' :: 'd' :: R) = some R :=
  stripLit_append ['a', 'n', 'd'] R

theorem stripLit_secondL (R : List Char) :
    stripLit ['s', 'e', 'c', 'o', 'n', 'd', '(', 's', ')']
      ('s' :: 'e' :: 'c' :: 'o' :: 'n' :: 'd' :: '(' :: 's' :: ')' :: R) = some R :=
  stripLit_append ['s', 'e', 'c', 'o', 'n', 'd', '(', 's', ')'] R

/-! ## Exact-shape runs of the regex matcher -/

theorem matchA_exact (g1 s1 s2 s3 g2 s4 : List Char)
    (hg1 : g1 ≠ []) (hg2 : g2 ≠ []) (hs1 : s1 ≠ []) (hs2 : s2 ≠ []) (hs3 : s3 ≠ [])
    (hs4 : s4 ≠ [])
    (dg1 : ∀ c ∈ g1, isDigitJS c = true) (dg2 : ∀ c ∈ g2, isDigitJS c = true)
    (ws1 : ∀ c ∈ s1, isSpaceJS c = true) (ws2 : ∀ c ∈ s2, isSpaceJS c = true)
    (ws3 : ∀ c ∈ s3, isSpaceJS c = true) (ws4 : ∀ c ∈ s4, isSpaceJS c = true) :
    matchA (g1 ++ s1 ++ minuteLit ++ s2 ++ andLit ++ s3 ++ g2 ++ s4 ++ secondLit)
      = some (g1, g2) := by
  obtain ⟨b1, t1, rfl⟩ := List.exists_cons_of_ne_nil hs1
  obtain ⟨b2, t2, rfl⟩ := List.exists_cons_of_ne_nil hs2
  obtain ⟨b3, t3, rfl⟩ := List.exists_cons_of_ne_nil hs3
  obtain ⟨b4, t4, rfl⟩ := List.exists_cons_of_ne_nil hs4
  obtain ⟨d2, e2, rfl⟩ := List.exists_cons_of_ne_nil hg2
  have hb1 : isSpaceJS b1 = true := ws1 b1 (List.mem_cons_self _ _)
  have wt1 : ∀ c ∈ t1, isSpaceJS c = true := fun c hc => ws1 c (List.mem_cons_of_mem _ hc)
  have hb2 : isSpaceJS b2 = true := ws2 b2 (List.mem_cons_self _ _)
  have wt2 : ∀ c ∈ t2, isSpaceJS c = true := fun c hc => ws2 c (List.mem_cons_of_mem _ hc)
  have hb3 : isSpaceJS b3 = true := ws3 b3 (List.mem_cons_self _ _)
  have wt3 : ∀ c ∈ t3, isSpaceJS c = true := fun c hc => ws3 c (List.mem_cons_of_mem _ hc)
  have hb4 : isSpaceJS b4 = true := ws4 b4 (List.mem_cons_self _ _)
  have wt4 : ∀ c ∈ t4, isSpaceJS c = true := fun c hc => ws4 c (List.mem_cons_of_mem _ hc)
  have hd2 : isDigitJS d2 = true := dg2 d2 (List.mem_cons_self _ _)
  have we2 : ∀ c ∈ e2, isDigitJS c = true := fun c hc => dg2 c (List.mem_cons_of_mem _ hc)
  have hb1d : isDigitJS b1 = false := space_not_digit hb1
  have hb4d : isDigitJS b4 = false := space_not_digit hb4
  have hd2s : isSpaceJS d2 = false := digit_not_space hd2
  simp only [matchA, minuteLit, andLit, secondLit, List.cons_append, List.nil_append,
    List.append_assoc]
  rw [takeWhile_app g1 b1 _ dg1 hb1d, dropWhile_app g1 b1 _ dg1 hb1d, if_neg hg1]
  rw [takeWhile_cons_block b1 t1 'm' _ hb1 wt1 (by decide),
      dropWhile_cons_block b1 t1 'm' _ hb1 wt1 (by decide),
      if_neg (List.cons_ne_nil b1 t1)]
  rw [stripLit_minuteL]
  simp only []
  rw [takeWhile_cons_block b2 t2 'a' _ hb2 wt2 (by decide),
      dropWhile_cons_block b2 t2 'a' _ hb2 wt2 (by decide),
      if_neg (List.cons_ne_nil b2 t2)]
  rw [stripLit_andL]
  simp only []
  rw [takeWhile_cons_block b3 t3 d2 _ hb3 wt3 hd2s,
      dropWhile_cons_block b3 t3 d2 _ hb3 wt3 hd2s,
      if_neg (List.cons_ne_nil b3 t3)]
  rw [takeWhile_cons_block d2 e2 b4 _ hd2 we2 hb4d,
      dropWhile_cons_block d2 e2 b4 _ hd2 we2 hb4d,
      if_neg (List.cons_ne_nil d2 e2)]
  rw [takeWhile_cons_block b4 t4 's' _ hb4 wt4 (by decide),
      dropWhile_cons_block b4 t4 's' _ hb4 wt4 (by decide),
      if_neg (List.cons_ne_nil b4 t4)]
  rw [stripLit_secondL]

theorem matchB_exact (g3 s5 : List Char) (hg3 : g3 ≠ []) (hs5 : s5 ≠ [])
    (dg3 : ∀ c ∈ g3, isDigitJS c = true) (ws5 : ∀ c ∈ s5, isSpaceJS c = true) :
    matchB (g3 ++ s5 ++ secondLit) = some g3 := by
  obtain ⟨b5, t5, rfl⟩ := List.exists_cons_of_ne_nil hs5
  have hb5 : isSpaceJS b5 = true := ws5 b5 (List.mem_cons_self _ _)
  have wt5 : ∀ c ∈ t5, isSpaceJS c = true := fun c hc => ws5 c (List.mem_cons_of_mem _ hc)
  have hb5d : isDigitJS b5 = false := space_not_digit hb5
  simp only [matchB, secondLit, List.cons_append, List.nil_append, List.append_assoc]
  rw [takeWhile_app g3 b5 _ dg3 hb5d, dropWhile_app g3 b5 _ dg3 hb5d, if_neg hg3]
  rw [takeWhile_cons_block b5 t5 's' _ hb5 wt5 (by decide),
      dropWhile_cons_block b5 t5 's' _ hb5 wt5 (by decide),
      if_neg (List.cons_ne_nil b5 t5)]
  rw [stripLit_secondL]

theorem matchA_secOnly (g3 s5 : List Char) (hg3 : g3 ≠ []) (hs5 : s5 ≠ [])
    (dg3 : ∀ c ∈ g3, isDigitJS c = true) (ws5 : ∀ c ∈ s5, isSpaceJS c = true) :
    matchA (g3 ++ s5 ++ secondLit) = none := by
  obtain ⟨b5, t5, rfl⟩ := List.exists_cons_of_ne_nil hs5
  have hb5 : isSpaceJS b5 = true := ws5 b5 (List.mem_cons_self _ _)
  have wt5 : ∀ c ∈ t5, isSpaceJS c = true := fun c hc => ws5 c (List.mem_cons_of_mem _ hc)
  have hb5d : isDigitJS b5 = false := space_not_digit hb5
  simp only [matchA, minuteLit, secondLit, List.cons_append, List.nil_append,
    List.append_assoc]
  rw [takeWhile_app g3 b5 _ dg3 hb5d, dropWhile_app g3 b5 _ dg3 hb5d, if_neg hg3]
  rw [takeWhile_cons_block b5 t5 's' _ hb5 wt5 (by decide),
      dropWhile_cons_block b5 t5 's' _ hb5 wt5 (by decide),
      if_neg (List.cons_ne_nil b5 t5)]
  rw [stripLit_head_ne (show ('s' : Char) ≠ 'm' by decide)]

theorem tryAt_exact_A (g1 s1 s2 s3 g2 s4 : List Char)
    (hg1 : g1 ≠ []) (hg2 : g2 ≠ []) (hs1 : s1 ≠ []) (hs2 : s2 ≠ []) (hs3 : s3 ≠ [])
    (hs4 : s4 ≠ [])
    (dg1 : ∀ c ∈ g1, isDigitJS c = true) (dg2 : ∀ c ∈ g2, isDigitJS c = true)
    (ws1 : ∀ c ∈ s1, isSpaceJS c = true) (ws2 : ∀ c ∈ s2, isSpaceJS c = true)
    (ws3 : ∀ c ∈ s3, isSpaceJS c = true) (ws4 : ∀ c ∈ s4, isSpaceJS c = true) :
    tryAt (g1 ++ s1 ++ minuteLit ++ s2 ++ andLit ++ s3 ++ g2 ++ s4 ++ secondLit)
      = some (MatchResult.minSec g1 g2) := by
  simp only [tryAt,
    matchA_exact g1 s1 s2 s3 g2 s4 hg1 hg2 hs1 hs2 hs3 hs4 dg1 dg2 ws1 ws2 ws3 ws4]

theorem tryAt_exact_B (g3 s5 : List Char) (hg3 : g3 ≠ []) (hs5 : s5 ≠ [])
    (dg3 : ∀ c ∈ g3, isDigitJS c = true) (ws5 : ∀ c ∈ s5, isSpaceJS c = true) :
    tryAt (g3 ++ s5 ++ secondLit) = some (MatchResult.secOnly g3) := by
  simp only [tryAt, matchA_secOnly g3 s5 hg3 hs5 dg3 ws5, matchB_exact g3 s5 hg3 hs5 dg3 ws5]

theorem jsMatch_exact_A (g1 s1 s2 s3 g2 s4 : List Char)
    (hg1 : g1 ≠ []) (hg2 : g2 ≠ []) (hs1 : s1 ≠ []) (hs2 : s2 ≠ []) (hs3 : s3 ≠ [])
    (hs4 : s4 ≠ [])
    (dg1 : ∀ c ∈ g1, isDigitJS c = true) (dg2 : ∀ c ∈ g2, isDigitJS c = true)
    (ws1 : ∀ c ∈ s1, isSpaceJS c = true) (ws2 : ∀ c ∈ s2, isSpaceJS c = true)
    (ws3 : ∀ c ∈ s3, isSpaceJS c = true) (ws4 : ∀ c ∈ s4, isSpaceJS c = true) :
    jsMatch (g1 ++ s1 ++ minuteLit ++ s2 ++ andLit ++ s3 ++ g2 ++ s4 ++ secondLit)
      = some (MatchResult.minSec g1 g2) := by
  have ht := tryAt_exact_A g1 s1 s2 s3 g2 s4 hg1 hg2 hs1 hs2 hs3 hs4 dg1 dg2 ws1 ws2 ws3 ws4
  obtain ⟨d1, e1, rfl⟩ := List.exists_cons_of_ne_nil hg1
  simp only [List.cons_append, List.append_assoc] at ht ⊢
  simp only [jsMatch]
  rw [ht]

theorem jsMatch_exact_B (g3 s5 : List Char) (hg3 : g3 ≠ []) (hs5 : s5 ≠ [])
    (dg3 : ∀ c ∈ g3, isDigitJS c = true) (ws5 : ∀ c ∈ s5, isSpaceJS c = true) :
    jsMatch (g3 ++ s5 ++ secondLit) = some (MatchResult.secOnly g3) := by
  have ht := tryAt_exact_B g3 s5 hg3 hs5 dg3 ws5
  obtain ⟨d3, e3, rfl⟩ := List.exists_cons_of_ne_nil hg3
  simp only [List.cons_append, List.append_assoc] at ht ⊢
  simp only [jsMatch]
  rw [ht]

theorem totalSecondsOf_exact_A (g1 s1 s2 s3 g2 s4 : List Char)
    (hg1 : g1 ≠ []) (hg2 : g2 ≠ []) (hs1 : s1 ≠ []) (hs2 : s2 ≠ []) (hs3 : s3 ≠ [])
    (hs4 : s4 ≠ [])
    (dg1 : ∀ c ∈ g1, isDigitJS c = true) (dg2 : ∀ c ∈ g2, isDigitJS c = true)
    (ws1 : ∀ c ∈ s1, isSpaceJS c = true) (ws2 : ∀ c ∈ s2, isSpaceJS c = true)
    (ws3 : ∀ c ∈ s3, isSpaceJS c = true) (ws4 : ∀ c ∈ s4, isSpaceJS c = true) :
    totalSecondsOf (g1 ++ s1 ++ minuteLit ++ s2 ++ andLit ++ s3 ++ g2 ++ s4 ++ secondLit)
      = some (decVal g1 * 60 + decVal g2) := by
  simp only [totalSecondsOf,
    jsMatch_exact_A g1 s1 s2 s3 g2 s4 hg1 hg2 hs1 hs2 hs3 hs4 dg1 dg2 ws1 ws2 ws3 ws4]

theorem totalSecondsOf_exact_B (g3 s5 : List Char) (hg3 : g3 ≠ []) (hs5 : s5 ≠ [])
    (dg3 : ∀ c ∈ g3, isDigitJS c = true) (ws5 : ∀ c ∈ s5, isSpaceJS c = true) :
    totalSecondsOf (g3 ++ s5 ++ secondLit) = some (decVal g3) := by
  simp only [totalSecondsOf, jsMatch_exact_B g3 s5 hg3 hs5 dg3 ws5]

/-- C1: Duration Parser correctness: every message that is exactly of the
shape `<m> minute(s) and <s> second(s)` (digit groups separated by
whitespace runs and the literal words of the pattern) parses to
`m*60 + s`, and every message exactly of the shape `<s> second(s)` parses
to `s`. -/
theorem durationParseBothShapes :
    (∀ g1 s1 s2 s3 g2 s4 : List Char,
        g1 ≠ [] → g2 ≠ [] → s1 ≠ [] → s2 ≠ [] → s3 ≠ [] → s4 ≠ [] →
        (∀ c ∈ g1, isDigitJS c = true) → (∀ c ∈ g2, isDigitJS c = true) →
        (∀ c ∈ s1, isSpaceJS c = true) → (∀ c ∈ s2, isSpaceJS c = true) →
        (∀ c ∈ s3, isSpaceJS c = true) → (∀ c ∈ s4, isSpaceJS c = true) →
        totalSecondsOf (g1 ++ s1 ++ minuteLit ++ s2 ++ andLit ++ s3 ++ g2 ++ s4 ++ secondLit)
          = some (decVal g1 * 60 + decVal g2)) ∧
    (∀ g3 s5 : List Char,
        g3 ≠ [] → s5 ≠ [] →
        (∀ c ∈ g3, isDigitJS c = true) → (∀ c ∈ s5, isSpaceJS c = true) →
        totalSecondsOf (g3 ++ s5 ++ secondLit) = some (decVal g3)) := by
  constructor
  · intro g1 s1 s2 s3 g2 s4 hg1 hg2 hs1 hs2 hs3 hs4 dg1 dg2 ws1 ws2 ws3 ws4
    exact totalSecondsOf_exact_A g1 s1 s2 s3 g2 s4 hg1 hg2 hs1 hs2 hs3 hs4 dg1 dg2
      ws1 ws2 ws3 ws4
  · intro g3 s5 hg3 hs5 dg3 ws5
    exact totalSecondsOf_exact_B g3 s5 hg3 hs5 dg3 ws5

/-- Witness for C1 at the spec's own examples. -/
theorem durationParseBothShapes_witness :
    totalSecondsOf ("2 minute(s) and 5 second(s)".toList) = some 125 ∧
    totalSecondsOf ("45 second(s)".toList) = some 45 := by
  constructor
  · have h := durationParseBothShapes.1 ['2'] [' '] [' '] [' '] ['5'] [' ']
      (by decide) (by decide) (by decide) (by decide) (by decide) (by decide)
      (by decide) (by decide) (by decide) (by decide) (by decide) (by decide)
    exact h
  · have h := durationParseBothShapes.2 ['4', '5'] [' ']
      (by decide) (by decide) (by decide) (by decide)
    exact h

/-! ## Soundness of the matcher: a successful match exhibits the shape -/

theorem matchA_sound {cs g1 g2 : List Char} (h : matchA cs = some (g1, g2)) :
    ∃ s1 s2 s3 s4 tail : List Char,
      cs = g1 ++ s1 ++ minuteLit ++ s2 ++ andLit ++ s3 ++ g2 ++ s4 ++ secondLit ++ tail
        ∧ g1 ≠ [] ∧ g2 ≠ [] ∧ s1 ≠ [] ∧ s2 ≠ [] ∧ s3 ≠ [] ∧ s4 ≠ []
        ∧ (∀ c ∈ g1, isDigitJS c = true) ∧ (∀ c ∈ g2, isDigitJS c = true)
        ∧ (∀ c ∈ s1, isSpaceJS c = true) ∧ (∀ c ∈ s2, isSpaceJS c = true)
        ∧ (∀ c ∈ s3, isSpaceJS c = true) ∧ (∀ c ∈ s4, isSpaceJS c = true) := by
  simp only [matchA] at h
  split at h
  · exact Option.noConfusion h
  rename_i hT1ne
  split at h
  · exact Option.noConfusion h
  rename_i hT2ne
  split at h
  · exact Option.noConfusion h
  rename_i r3 heq1
  split at h
  · exact Option.noConfusion h
  rename_i hT3ne
  split at h
  · exact Option.noConfusion h
  rename_i r5 heq2
  split at h
  · exact Option.noConfusion h
  rename_i hT4ne
  split at h
  · exact Option.noConfusion h
  rename_i hT5ne
  split at h
  · exact Option.noConfusion h
  rename_i hT6ne
  split at h
  · exact Option.noConfusion h
  rename_i r9 heq3
  simp only [Option.some.injEq, Prod.mk.injEq] at h
  obtain ⟨hg1, hg2⟩ := h
  subst hg1
  subst hg2
  have W1 : cs = cs.takeWhile isDigitJS ++ cs.dropWhile isDigitJS :=
    (List.takeWhile_append_dropWhile isDigitJS cs).symm
  have W2 : cs.dropWhile isDigitJS
      = (cs.dropWhile isDigitJS).takeWhile isSpaceJS
        ++ (cs.dropWhile isDigitJS).dropWhile isSpaceJS :=
    (List.takeWhile_append_dropWhile isSpaceJS _).symm
  have W3 : (cs.dropWhile isDigitJS).dropWhile isSpaceJS = minuteLit ++ r3 :=
    stripLit_eq_append heq1
  have W4 : r3 = r3.takeWhile isSpaceJS ++ r3.dropWhile isSpaceJS :=
    (List.takeWhile_append_dropWhile isSpaceJS _).symm
  have W5 : r3.dropWhile isSpaceJS = andLit ++ r5 := stripLit_eq_append heq2
  have W6 : r5 = r5.takeWhile isSpaceJS ++ r5.dropWhile isSpaceJS :=
    (List.takeWhile_append_dropWhile isSpaceJS _).symm
  have W7 : r5.dropWhile isSpaceJS
      = (r5.dropWhile isSpaceJS).takeWhile isDigitJS
        ++ (r5.dropWhile isSpaceJS).dropWhile isDigitJS :=
    (List.takeWhile_append_dropWhile isDigitJS _).symm
  have W8 : (r5.dropWhile isSpaceJS).dropWhile isDigitJS
      = ((r5.dropWhile isSpaceJS).dropWhile isDigitJS).takeWhile isSpaceJS
        ++ ((r5.dropWhile isSpaceJS).dropWhile isDigitJS).dropWhile isSpaceJS :=
    (List.takeWhile_append_dropWhile isSpaceJS _).symm
  have W9 : ((r5.dropWhile isSpaceJS).dropWhile isDigitJS).dropWhile isSpaceJS
      = secondLit ++ r9 := stripLit_eq_append heq3
  rw [W9] at W8
  rw [W8] at W7
  rw [W7] at W6
  rw [W6] at W5
  rw [W5] at W4
  rw [W4] at W3
  rw [W3] at W2
  rw [W2] at W1
  refine ⟨(cs.dropWhile isDigitJS).takeWhile isSpaceJS, r3.takeWhile isSpaceJS,
    r5.takeWhile isSpaceJS,
    ((r5.dropWhile isSpaceJS).dropWhile isDigitJS).takeWhile isSpaceJS, r9,
    by simpa only [List.append_assoc] using W1,
    hT1ne, hT5ne, hT2ne, hT3ne, hT4ne, hT6ne,
    fun c hc => List.mem_takeWhile_imp hc, fun c hc => List.mem_takeWhile_imp hc,
    fun c hc => List.mem_takeWhile_imp hc, fun c hc => List.mem_takeWhile_imp hc,
    fun c hc => List.mem_takeWhile_imp hc, fun c hc => List.mem_takeWhile_imp hc⟩

theorem matchB_sound {cs g3 : List Char} (h : matchB cs = some g3) :
    ∃ s5 tail : List Char,
      cs = g3 ++ s5 ++ secondLit ++ tail
        ∧ g3 ≠ [] ∧ s5 ≠ []
        ∧ (∀ c ∈ g3, isDigitJS c = true) ∧ (∀ c ∈ s5, isSpaceJS c = true) := by
  simp only [matchB] at h
  split at h
  · exact Option.noConfusion h
  rename_i hT1ne
  split at h
  · exact Option.noConfusion h
  rename_i hT2ne
  split at h
  · exact Option.noConfusion h
  rename_i r9 heq1
  simp only [Option.some.injEq] at h
  subst h
  have W1 : cs = cs.takeWhile isDigitJS ++ cs.dropWhile isDigitJS :=
    (List.takeWhile_append_dropWhile isDigitJS cs).symm
  have W2 : cs.dropWhile isDigitJS
      = (cs.dropWhile isDigitJS).takeWhile isSpaceJS
        ++ (cs.dropWhile isDigitJS).dropWhile isSpaceJS :=
    (List.takeWhile_append_dropWhile isSpaceJS _).symm
  have W3 : (cs.dropWhile isDigitJS).dropWhile isSpaceJS = secondLit ++ r9 :=
    stripLit_eq_append heq1
  rw [W3] at W2
  rw [W2] at W1
  exact ⟨(cs.dropWhile isDigitJS).takeWhile isSpaceJS, r9,
    by simpa only [List.append_assoc] using W1, hT1ne, hT2ne,
    fun c hc => List.mem_takeWhile_imp hc, fun c hc => List.mem_takeWhile_imp hc⟩

theorem tryAt_nil : tryAt [] = none := rfl

theorem tryAt_sound {cs : List Char} {r : MatchResult} (h : tryAt cs = some r) :
    specContainsA cs ∨ specContainsB cs := by
  simp only [tryAt] at h
  split at h
  · rename_i g1 g2 hma
    left
    obtain ⟨s1, s2, s3, s4, tail, rest⟩ := matchA_sound hma
    exact ⟨[], g1, s1, s2, s3, g2, s4, tail, rest⟩
  · rename_i hma
    split at h
    · rename_i g3 hmb
      right
      obtain ⟨s5, tail, rest⟩ := matchB_sound hmb
      exact ⟨[], g3, s5, tail, rest⟩
    · exact Option.noConfusion h

theorem specContainsA_cons (c : Char) {cs : List Char} (h : specContainsA cs) :
    specContainsA (c :: cs) := by
  obtain ⟨pre, g1, s1, s2, s3, g2, s4, tail, heq, rest⟩ := h
  refine ⟨c :: pre, g1, s1, s2, s3, g2, s4, tail, ?_, rest⟩
  rw [heq]
  simp [List.cons_append, List.append_assoc]

theorem specContainsB_cons (c : Char) {cs : List Char} (h : specContainsB cs) :
    specContainsB (c :: cs) := by
  obtain ⟨pre, g3, s5, tail, heq, rest⟩ := h
  refine ⟨c :: pre, g3, s5, tail, ?_, rest⟩
  rw [heq]
  simp [List.cons_append, List.append_assoc]

theorem jsMatch_sound : ∀ {cs : List Char} {r : MatchResult},
    jsMatch cs = some r → specContainsA cs ∨ specContainsB cs := by
  intro cs
  induction cs with
  | nil =>
    intro r h
    rw [jsMatch, tryAt_nil] at h
    exact Option.noConfusion h
  | cons c cs ih =>
    intro r h
    rw [jsMatch] at h
    cases htry : tryAt (c :: cs) with
    | some r2 => exact tryAt_sound htry
    | none =>
      rw [htry] at h
      simp only [] at h
      rcases ih h with hc | hc
      · exact Or.inl (specContainsA_cons c hc)
      · exact Or.inr (specContainsB_cons c hc)

theorem specContainsA_nil_false : ¬ specContainsA [] := by
  rintro ⟨pre, g1, s1, s2, s3, g2, s4, tail, heq, -⟩
  have hlen := congrArg List.length heq
  simp [minuteLit, andLit, secondLit] at hlen
  omega

theorem specContainsB_nil_false : ¬ specContainsB [] := by
  rintro ⟨pre, g3, s5, tail, heq, -⟩
  have hlen := congrArg List.length heq
  simp [secondLit] at hlen
  omega

/-- C4: a lockout message containing neither duration shape produces no
regex match, hence the handler creates no countdown and leaves the raw
message displayed unchanged — a no-op, not an error. -/
theorem unparseableMessageNoOp (msg : String)
    (hA : ¬ specContainsA msg.toList) (hB : ¬ specContainsB msg.toList) :
    jsMatch msg.toList = none
      ∧ lockoutInitHandler msg = { countdown := none, displayedMessage := msg } := by
  have hm : jsMatch msg.toList = none := by
    cases hjs : jsMatch msg.toList with
    | none => rfl
    | some r =>
      rcases jsMatch_sound hjs with hc | hc
      · exact absurd hc hA
      · exact absurd hc hB
  refine ⟨hm, ?_⟩
  have hm' : jsMatch msg.data = none := hm
  simp [lockoutInitHandler, countdownStarts, totalSecondsOf, hm, hm']

/-- Witness for C4 at the empty message. -/
theorem unparseableMessageNoOp_witness :
    jsMatch "".toList = none
      ∧ lockoutInitHandler "" = { countdown := none, displayedMessage := "" } :=
  unparseableMessageNoOp "" specContainsA_nil_false specContainsB_nil_false

/-! ## Countdown state-machine lemmas -/

theorem tick_not_running {s : LockoutState} (h : s.running = false) : tick s = s := by
  simp [tick, h]

theorem tick_preserves_original (s : LockoutState) : (tick s).original = s.original := by
  simp only [tick, showLockoutExpired]
  split_ifs <;> rfl

theorem tick_iterate_original (s : LockoutState) (k : Nat) :
    (tick^[k] s).original = s.original := by
  induction k with
  | zero => rfl
  | succ k ih => rw [Function.iterate_succ_apply', tick_preserves_original, ih]

/-- While `k < n` ticks have fired, the widget is still running with
`n - k` seconds remaining and the elapsed fraction shown. -/
theorem tick_iterate_running (n k : Nat) (hk : k < n) :
    tick^[k] (startLockoutCountdown n) =
      { remaining := (n : Int) - (k : Int)
        original := n
        running := true
        timerText := formatTimeInt ((n : Int) - (k : Int))
        progressPct := (k : Rat) / (n : Rat) * 100
        expiredShown := false
        lockoutClassPresent := true
        alertSuccess := false } := by
  induction k with
  | zero =>
    simp [startLockoutCountdown, LockoutState.mk.injEq, zero_div]
  | succ k ih =>
    have hk' : k < n := Nat.lt_of_succ_lt hk
    rw [Function.iterate_succ_apply', ih hk']
    have hpos : ¬((n : Int) - (k : Int) - 1 ≤ 0) := by
      have : (k : Int) + 1 < (n : Int) := by exact_mod_cast hk
      omega
    have hrem : (n : Int) - (k : Int) - 1 = (n : Int) - ((k + 1 : Nat) : Int) := by
      push_cast
      ring
    simp only [tick, eq_self_iff_true, if_true, if_neg hpos, LockoutState.mk.injEq]
    refine ⟨hrem, trivial, trivial, by rw [hrem], ?_, trivial, trivial, trivial⟩
    push_cast
    ring

/-- After exactly `n` ticks the countdown has expired: the interval is
cleared, the expired UI shown, the alert recategorized, and the progress
indicator reads 100. -/
theorem tick_iterate_expired (n : Nat) (hn : 0 < n) :
    tick^[n] (startLockoutCountdown n) =
      { remaining := 0
        original := n
        running := false
        timerText := formatTimeInt 0
        progressPct := 100
        expiredShown := true
        lockoutClassPresent := false
        alertSuccess := true } := by
  obtain ⟨m, rfl⟩ : ∃ m, n = m + 1 := ⟨n - 1, (Nat.succ_pred_eq_of_pos hn).symm⟩
  rw [Function.iterate_succ_apply', tick_iterate_running (m + 1) m (Nat.lt_succ_self m)]
  have hrem : ((m + 1 : Nat) : Int) - (m : Int) - 1 = 0 := by
    push_cast
    ring
  have hle : ((m + 1 : Nat) : Int) - (m : Int) - 1 ≤ 0 := by rw [hrem]
  have hne : ((m + 1 : Nat) : Rat) ≠ 0 := by positivity
  simp only [tick, eq_self_iff_true, if_true, if_pos hle, showLockoutExpired,
    LockoutState.mk.injEq]
  refine ⟨hrem, trivial, trivial, by rw [hrem], ?_, trivial, trivial, trivial⟩
  rw [hrem]
  push_cast
  field_simp

/-- C2: starting from total 125 in the running state, after exactly 125
ticks the remaining count is 0, the interval is cancelled and the expired
UI is shown; a 126th tick changes nothing — neither the counter nor any
modelled DOM state. -/
theorem countdownTerminal125 :
    (tick^[125] (startLockoutCountdown 125)).remaining = 0
      ∧ (tick^[125] (startLockoutCountdown 125)).running = false
      ∧ (tick^[125] (startLockoutCountdown 125)).expiredShown = true
      ∧ tick (tick^[125] (startLockoutCountdown 125))
          = tick^[125] (startLockoutCountdown 125) := by
  have h := tick_iterate_expired 125 (by norm_num)
  rw [h]
  exact ⟨rfl, rfl, rfl, tick_not_running rfl⟩

/-- Inductive invariant of one countdown widget. -/
theorem lockout_invariant (n : Nat) (hn : 0 < n) (k : Nat) :
    (tick^[k] (startLockoutCountdown n)).original = n
      ∧ 0 ≤ (tick^[k] (startLockoutCountdown n)).remaining
      ∧ (tick^[k] (startLockoutCountdown n)).remaining ≤ (n : Int)
      ∧ ((tick^[k] (startLockoutCountdown n)).running = true →
          1 ≤ (tick^[k] (startLockoutCountdown n)).remaining) := by
  induction k with
  | zero =>
    refine ⟨rfl, Int.ofNat_nonneg n, le_refl ((n : Nat) : Int), fun _ => ?_⟩
    show (1 : Int) ≤ ((n : Nat) : Int)
    exact_mod_cast hn
  | succ k ih =>
    obtain ⟨ho, h0, hle, hrun⟩ := ih
    rw [Function.iterate_succ_apply']
    by_cases hr : (tick^[k] (startLockoutCountdown n)).running = true
    · have h1 : 1 ≤ (tick^[k] (startLockoutCountdown n)).remaining := hrun hr
      by_cases hz : (tick^[k] (startLockoutCountdown n)).remaining - 1 ≤ 0
      · simp only [tick, hr, if_true, if_pos hz, showLockoutExpired]
        refine ⟨ho, by omega, by omega, fun hfalse => ?_⟩
        exact absurd hfalse (by simp)
      · simp only [tick, hr, if_true, if_neg hz]
        exact ⟨ho, by omega, by omega, fun _ => by omega⟩
    · rw [tick_not_running (by simpa using hr)]
      exact ⟨ho, h0, hle, hrun⟩

/-- C3: for every countdown started with a positive total, at every point
0 ≤ remaining ≤ total, and the captured total never changes. -/
theorem countdownStateInvariant (n : Nat) (hn : 0 < n) (k : Nat) :
    0 ≤ (tick^[k] (startLockoutCountdown n)).remaining
      ∧ (tick^[k] (startLockoutCountdown n)).remaining ≤ (n : Int)
      ∧ (tick^[k] (startLockoutCountdown n)).original = n := by
  obtain ⟨ho, h0, hle, -⟩ := lockout_invariant n hn k
  exact ⟨h0, hle, ho⟩

/-- Witness for C3 with total 2 after one tick. -/
theorem countdownStateInvariant_witness :
    0 ≤ (tick^[1] (startLockoutCountdown 2)).remaining
      ∧ (tick^[1] (startLockoutCountdown 2)).remaining ≤ (2 : Int)
      ∧ (tick^[1] (startLockoutCountdown 2)).original = 2 :=
  countdownStateInvariant 2 (by norm_num) 1

/-- C5: a parsed total of exactly zero starts no countdown, and every
started countdown has a strictly positive total, which is the immutable
divisor of the progress-percentage computation at every tick. -/
theorem zeroDurationGuard :
    (∀ cs : List Char, totalSecondsOf cs = some 0 → countdownStarts cs = none)
      ∧ (∀ (cs : List Char) (n : Nat), countdownStarts cs = some n →
          0 < n ∧ ∀ k : Nat, (tick^[k] (startLockoutCountdown n)).original = n) := by
  constructor
  · intro cs h
    simp [countdownStarts, h]
  · intro cs n h
    simp only [countdownStarts] at h
    split at h
    · rename_i t ht
      split at h
      · rename_i hpos
        simp only [Option.some.injEq] at h
        subst h
        exact ⟨hpos, fun k => by
          rw [tick_iterate_original]
          rfl⟩
      · exact Option.noConfusion h
    · exact Option.noConfusion h

/-- Witness for C5 at the zero-duration message. -/
theorem zeroDurationGuard_witness : countdownStarts ("0 second(s)".toList) = none :=
  zeroDurationGuard.1 ("0 second(s)".toList) (by decide)

/-! ## Display formatting -/

theorem padStart2_small : ∀ r : Nat, r < 60 →
    padStart2 (toString r) = (if r < 10 then "0" ++ toString r else toString r) := by
  decide

theorem toString_intCast (m : Nat) : toString ((m : Nat) : Int) = toString m := rfl

/-- C6: the rendered countdown text always agrees with the spec's format
(`M:SS` with two-digit seconds when minutes are positive, else `Ss`), in
particular at 65 and 9 seconds, and on reaching zero the progress
indicator of the widget reads 100. -/
theorem displayFormatting :
    (∀ n : Nat, formatTimeInt (n : Int) = specFormatTime n)
      ∧ formatTimeInt 65 = "1:05" ∧ formatTimeInt 9 = "9s"
      ∧ (∀ n : Nat, 0 < n →
          (tick^[n] (startLockoutCountdown n)).progressPct = 100) := by
  refine ⟨?_, by decide, by decide, ?_⟩
  · intro n
    have hf : Int.fdiv (n : Int) 60 = ((n / 60 : Nat) : Int) := by
      exact_mod_cast (Int.ofNat_fdiv n 60).symm
    have ht : Int.tmod (n : Int) 60 = ((n % 60 : Nat) : Int) := by
      exact_mod_cast (Int.ofNat_tmod n 60).symm
    have hmod : n % 60 < 60 := Nat.mod_lt _ (by norm_num)
    simp only [formatTimeInt, specFormatTime, hf, ht, toString_intCast]
    by_cases hd : 0 < n / 60
    · have hd' : (0 : Int) < ((n / 60 : Nat) : Int) := by exact_mod_cast hd
      rw [if_pos hd', if_pos hd, padStart2_small (n % 60) hmod]
    · have hd' : ¬(0 : Int) < ((n / 60 : Nat) : Int) := by exact_mod_cast hd
      have h60 : n < 60 := by
        rcases Nat.lt_or_ge n 60 with h | h
        · exact h
        · exact absurd (Nat.div_pos h (by norm_num)) hd
      rw [if_neg hd', if_neg hd, Nat.mod_eq_of_lt h60]
  · intro n hn
    rw [tick_iterate_expired n hn]

/-- Witness for C6 applying the formatting law and the 100 % expiry fact. -/
theorem displayFormatting_witness :
    formatTimeInt ((65 : Nat) : Int) = specFormatTime 65
      ∧ (tick^[3] (startLockoutCountdown 3)).progressPct = 100 :=
  ⟨displayFormatting.1 65, displayFormatting.2.2.2 3 (by norm_num)⟩

/-! ## Login form submit gating -/

/-- C7 counterexample: with the lockout still active but a submission
warning already present in the document, the handler still intercepts the
submit yet inserts no new warning, so the claim's unconditional "a
transient warning is inserted" on every blocked attempt is false. -/
theorem loginGateCounterexample :
    (loginSubmitHandler true false true).prevented = true
      ∧ (loginSubmitHandler true false true).warningInserted = false := by
  decide

/-- C7 (amended): while the alert is in the locked category every submit
is intercepted, and a self-removing 5000 ms warning is inserted unless one
is already displayed; during every running tick the alert is still in the
locked category (so submits are blocked), and once expired the alert is
recategorized and submission proceeds unblocked. -/
theorem loginGateAmended :
    (∀ w : Bool, (loginSubmitHandler true false w).prevented = true)
      ∧ (loginSubmitHandler true false false).warningInserted = true
      ∧ (loginSubmitHandler true false false).warningRemovalDelayMs = 5000
      ∧ (loginSubmitHandler true false true).warningInserted = false
      ∧ (∀ p w : Bool, (loginSubmitHandler p true w).prevented = false)
      ∧ (∀ n k : Nat, k < n →
          (tick^[k] (startLockoutCountdown n)).lockoutClassPresent = true
            ∧ (tick^[k] (startLockoutCountdown n)).alertSuccess = false
            ∧ ∀ w : Bool,
                (loginSubmitHandler (tick^[k] (startLockoutCountdown n)).lockoutClassPresent
                  (tick^[k] (startLockoutCountdown n)).alertSuccess w).prevented = true)
      ∧ (∀ n : Nat, 0 < n →
          (tick^[n] (startLockoutCountdown n)).lockoutClassPresent = false
            ∧ (tick^[n] (startLockoutCountdown n)).alertSuccess = true
            ∧ ∀ w : Bool,
                (loginSubmitHandler (tick^[n] (startLockoutCountdown n)).lockoutClassPresent
                  (tick^[n] (startLockoutCountdown n)).alertSuccess w).prevented = false) := by
  refine ⟨fun w => rfl, rfl, rfl, rfl, ?_, ?_, ?_⟩
  · intro p w
    cases p <;> rfl
  · intro n k hk
    rw [tick_iterate_running n k hk]
    exact ⟨rfl, rfl, fun w => rfl⟩
  · intro n hn
    rw [tick_iterate_expired n hn]
    exact ⟨rfl, rfl, fun w => rfl⟩

/-- Witness for C7's amended statement with total 2. -/
theorem loginGateAmended_witness :
    (loginSubmitHandler true false false).warningInserted = true
      ∧ (tick^[1] (startLockoutCountdown 2)).lockoutClassPresent = true
      ∧ (tick^[2] (startLockoutCountdown 2)).alertSuccess = true :=
  ⟨loginGateAmended.2.1,
    (loginGateAmended.2.2.2.2.2.1 2 1 (by norm_num)).1,
    (loginGateAmended.2.2.2.2.2.2 2 (by norm_num)).2.1⟩

/-! ## Password visibility toggle -/

/-- The masked login password widget as the markup renders it. -/
def maskedLoginWidget : PasswordWidget :=
  { fieldType := "password"
    icon := some { src := "/static/uploads/eye.png", alt := "Show password" }
    ariaLabel := "Show password"
    title := "Show password" }

/-- C8 counterexample: the toggle is not idempotent — applying it twice to
the masked widget differs from applying it once (two applications restore
the masked state, one shows plaintext). -/
theorem passwordToggleNotIdempotent :
    togglePasswordField (togglePasswordField maskedLoginWidget)
      ≠ togglePasswordField maskedLoginWidget := by
  decide

/-- C8 (amended): on every consistent widget the toggle is an involution
(double application restores the original state) that flips
masked↔plaintext, and it leaves everything outside the one input and its
control untouched. -/
theorem passwordToggleInvolution {α : Type} (rest : α) (w : PasswordWidget)
    (h : consistentWidget w = true) :
    togglePasswordField (togglePasswordField w) = w
      ∧ togglePasswordField w ≠ w
      ∧ (w.fieldType = "password" → (togglePasswordField w).fieldType = "text")
      ∧ (w.fieldType = "text" → (togglePasswordField w).fieldType = "password")
      ∧ (togglePasswordOnPage { widget := w, rest := rest }).rest = rest
      ∧ (togglePasswordOnPage { widget := w, rest := rest }).widget
          = togglePasswordField w := by
  obtain ⟨ft, ic, al, ti⟩ := w
  simp only [consistentWidget, Bool.or_eq_true, Bool.and_eq_true, decide_eq_true_eq] at h
  rcases h with ⟨⟨⟨hft, hal⟩, hti⟩, hic | hic⟩ | ⟨⟨⟨hft, hal⟩, hti⟩, hic | hic⟩ <;>
    subst hft <;> subst hal <;> subst hti <;> subst hic <;>
    exact ⟨by decide, by decide, by decide, by decide, rfl, rfl⟩

/-- Witness for C8's amended statement on the masked login widget. -/
theorem passwordToggleInvolution_witness :
    togglePasswordField (togglePasswordField maskedLoginWidget) = maskedLoginWidget
      ∧ (togglePasswordOnPage { widget := maskedLoginWidget, rest := (7 : Nat) }).rest
          = 7 :=
  ⟨(passwordToggleInvolution (7 : Nat) maskedLoginWidget (by decide)).1,
    (passwordToggleInvolution (7 : Nat) maskedLoginWidget (by decide)).2.2.2.2.1⟩

/-! ## Field validator rules -/

/-- C9: the validator's verdict is a pure function of the field data (and
the looked-up companion value): a required field whose trimmed value is
empty is invalid, an email field with a non-empty value failing the email
regex is invalid, the registration password field with a non-empty value
shorter than 8 characters is invalid, and the confirmation field with a
non-empty value differing from the companion register-password value is
invalid — each with its message. -/
theorem validateFieldRules :
    (∀ (value fieldType fieldId : String) (rpv : Option String),
        jsTrim value = "" →
        (validateField value fieldType true fieldId rpv).isValid = false
          ∧ "This field is required"
              ∈ (validateField value fieldType true fieldId rpv).errors)
      ∧ (∀ (value fieldId : String) (req : Bool) (rpv : Option String),
        jsTrim value ≠ "" → emailTest (jsTrim value).toList = false →
        (validateField value "email" req fieldId rpv).isValid = false
          ∧ "Please enter a valid email address"
              ∈ (validateField value "email" req fieldId rpv).errors)
      ∧ (∀ (value fieldType : String) (req : Bool) (rpv : Option String),
        jsTrim value ≠ "" → (jsTrim value).length < 8 →
        (validateField value fieldType req "register_password" rpv).isValid = false
          ∧ "Password must be at least 8 characters long"
              ∈ (validateField value fieldType req "register_password" rpv).errors)
      ∧ (∀ (value fieldType pw : String) (req : Bool),
        jsTrim value ≠ "" → jsTrim value ≠ pw →
        (validateField value fieldType req "confirm_password" (some pw)).isValid = false
          ∧ "Passwords do not match"
              ∈ (validateField value fieldType req "confirm_password" (some pw)).errors) := by
  refine ⟨?_, ?_, ?_, ?_⟩
  · intro value ftype fid rpv hv
    simp only [validateField]
    cases rpv <;>
      split_ifs <;>
      constructor <;> (repeat' split) <;> simp_all [addFieldError]
  · intro value fid req rpv hv he
    simp only [validateField]
    cases rpv <;>
      split_ifs <;>
      constructor <;> (repeat' split) <;> simp_all [addFieldError]
  · intro value ftype req rpv hv hlen
    simp only [validateField]
    cases rpv <;>
      split_ifs <;>
      constructor <;> (repeat' split) <;> simp_all [addFieldError]
  · intro value ftype pw req hv hne
    simp only [validateField]
    split_ifs <;> constructor <;> simp_all [addFieldError]

/-- Witness for C9 on concrete fields of each kind. -/
theorem validateFieldRules_witness :
    (validateField "   " "text" true "login_email" none).isValid = false
      ∧ (validateField "user at host" "email" true "login_email" none).isValid = false
      ∧ (validateField "short" "password" true "register_password" none).isValid = false
      ∧ (validateField "longenough"
          "password" true "confirm_password" (some "different")).isValid = false :=
  ⟨(validateFieldRules.1 "   " "text" "login_email" none (by decide)).1,
    (validateFieldRules.2.1 "user at host" "login_email" true none (by decide) (by decide)).1,
    (validateFieldRules.2.2.1 "short" "password" true none (by decide) (by decide)).1,
    (validateFieldRules.2.2.2 "longenough" "password" "different" true
      (by decide) (by decide)).1⟩

/-! ## File-size guard -/

/-- C10: on a change event, a selected file larger than 5·1024·1024 bytes
resets the input's value to the empty string; a file of at most that size
(or no file) leaves the selection unchanged. -/
theorem fileSizeGuard :
    (∀ (size : Nat) (v : String), 5 * 1024 * 1024 < size →
        fileChangeHandler (some size) v = "")
      ∧ (∀ (size : Nat) (v : String), size ≤ 5 * 1024 * 1024 →
        fileChangeHandler (some size) v = v)
      ∧ (∀ v : String, fileChangeHandler none v = v) := by
  refine ⟨?_, ?_, fun v => rfl⟩
  · intro size v h
    simp [fileChangeHandler, h]
  · intro size v h
    simp [fileChangeHandler, Nat.not_lt.mpr h]

/-- Witness for C10 one byte above and at the 5 MB limit. -/
theorem fileSizeGuard_witness :
    fileChangeHandler (some 5242881) "photo.png" = ""
      ∧ fileChangeHandler (some 5242880) "photo.png" = "photo.png" :=
  ⟨fileSizeGuard.1 5242881 "photo.png" (by norm_num),
    fileSizeGuard.2.1 5242880 "photo.png" (by norm_num)⟩

end AppSec
